import Mathlib

/-!
Verification development for the opencode-session-viewer synchronization and
search core.

The Python modules `app/db.py` (Extension Store), `app/db_search.py` (search
mirror store), `app/db_upstream.py` (read-only upstream store) and
`app/sync.py` (sync engine) are shallowly embedded below: SQLAlchemy tables
become lists of rows, sessions/commits become explicit state passing, and the
semi-structured message/part payloads are modelled at the level of their typed
accessors (`role`, `type`, `text`).  The Query Engine and listing layer of the
specification have no implementation under `src/app` in this snapshot (only
their tests and callers exist); those are modelled from the spec and marked as
such in their doc comments.
-/

namespace OCSV

/-! ### Character-level string utilities (model of Python str.strip / lower, SQL LIKE) -/

/-- Whitespace test modelling the characters stripped by Python str.strip
(the ASCII whitespace subset, which covers all inputs of interest here). -/
def isSpaceChar (c : Char) : Bool :=
  c == ' ' || c == '\t' || c == '\n' || c == '\r'

/-- Drop leading whitespace characters from a character list. -/
def dropLeadingSpace : List Char → List Char
  | [] => []
  | c :: cs => if isSpaceChar c then dropLeadingSpace cs else c :: cs

/-- Strip whitespace from both ends of a character list. -/
def stripL (l : List Char) : List Char :=
  dropLeadingSpace ((dropLeadingSpace l.reverse).reverse)

/-- Model of Python str.strip. -/
def pyStrip (s : String) : String :=
  ⟨stripL s.data⟩

/-- ASCII lower-casing of one character. -/
def lowerChar (c : Char) : Char :=
  if c.toNat ≥ 65 && c.toNat ≤ 90 then Char.ofNat (c.toNat + 32) else c

/-- ASCII lower-casing of a string. -/
def lowerStr (s : String) : String :=
  ⟨s.data.map lowerChar⟩

/-- Boolean prefix test on character lists. -/
def prefixOfL : List Char → List Char → Bool
  | [], _ => true
  | _ :: _, [] => false
  | a :: as, b :: bs => a == b && prefixOfL as bs

/-- Boolean contiguous-substring test on character lists. -/
def infixOfL (needle : List Char) : List Char → Bool
  | [] => prefixOfL needle []
  | b :: bs => prefixOfL needle (b :: bs) || infixOfL needle bs

/-- Substring containment on strings, modelling SQL LIKE with surrounding
percent wildcards. -/
def strContainsSub (needle hay : String) : Bool :=
  infixOfL needle.data hay.data

/-! ### Extension Store (app/db.py) -/

/-- Row of the `conversation` table owned by the Extension Store: nullable
`title` and `slug` overrides plus the `archived` flag (default false). -/
structure Conversation where
  title : Option String
  slug : Option String
  archived : Bool
deriving DecidableEq, Repr

/-- Default field values of a freshly constructed Conversation row
(`title=None`, `slug=None`, `archived=False` in `app/db.py`). -/
def bareConversation : Conversation :=
  { title := none, slug := none, archived := false }

/-- The Extension Store table, keyed by upstream session id. -/
abbrev ExtStore := List (String × Conversation)

/-- Model of `get_conversation` (app/db.py): primary-key lookup. -/
def get_conversation (db : ExtStore) (id : String) : Option Conversation :=
  (db.find? (fun p => p.fst == id)).map (fun p => p.snd)

/-- Model of `ensure_conversation_exists` (app/db.py): insert a bare row iff
absent, otherwise leave the store untouched. -/
def ensure_conversation_exists (db : ExtStore) (id : String) : ExtStore :=
  match get_conversation db id with
  | some _ => db
  | none => (id, bareConversation) :: db

/-- Store a full row under an id: update in place when present, insert when
absent (the commit at the end of `upsert_conversation`). -/
def storeRow (db : ExtStore) (id : String) (c : Conversation) : ExtStore :=
  if (get_conversation db id).isSome then
    db.map (fun p => if p.fst == id then (p.fst, c) else p)
  else (id, c) :: db

/-- Model of `upsert_conversation` (app/db.py).  The Python defaults are the
Ellipsis sentinel; an argument is therefore an `Option (Option String)`:
`none` means the field was omitted, `some none` is an explicit None clearing
the override, `some (some v)` sets it.  Returns the updated store and the
resulting row. -/
def upsert_conversation (db : ExtStore) (id : String)
    (title slug : Option (Option String)) : ExtStore × Conversation :=
  let base := (get_conversation db id).getD bareConversation
  let c1 := match title with
    | none => base
    | some t => { base with title := t }
  let c2 := match slug with
    | none => c1
    | some s => { c1 with slug := s }
  (storeRow db id c2, c2)

/-- Model of `set_conversation_archived` (app/db.py): create the row with the
given archived value when absent, else update `archived` in place; returns
True unconditionally. -/
def set_conversation_archived (db : ExtStore) (id : String) (archived : Bool) :
    ExtStore × Bool :=
  match get_conversation db id with
  | none => ((id, { bareConversation with archived := archived }) :: db, true)
  | some _ =>
    (db.map (fun p =>
      if p.fst == id then (p.fst, { p.snd with archived := archived }) else p), true)

/-- Model of `is_conversation_archived` (app/db.py): false when no row. -/
def is_conversation_archived (db : ExtStore) (id : String) : Bool :=
  match get_conversation db id with
  | some c => c.archived
  | none => false

/-- Model of `get_archived_conversation_ids` (app/db.py): ids of rows whose
archived flag is set. -/
def get_archived_conversation_ids (db : ExtStore) : List String :=
  (db.filter (fun p => p.snd.archived)).map (fun p => p.fst)

/-! ### Upstream store (app/db_upstream.py), at the level of its typed accessors -/

/-- Upstream `session` row (the fields the sync and query layers read). -/
structure UpstreamSession where
  id : String
  directory : Option String := none
  title : Option String := none
  parent_id : Option String := none
  time_updated : Option Int := none
deriving DecidableEq, Repr

/-- Upstream `message` row; `role` is the typed accessor over the JSON
payload (defaulting to "unknown" when absent). -/
structure UpstreamMessage where
  id : String
  session_id : String
  role : String := "unknown"
deriving DecidableEq, Repr

/-- Upstream `part` row; `type` and `text` are the typed accessors over the
JSON payload. -/
structure UpstreamPart where
  id : String
  message_id : String
  type : String := "unknown"
  text : Option String := none
  time_created : Option Int := none
deriving DecidableEq, Repr

/-- The read-only upstream database, together with the existence of its file
(`Config.OPENCODE_DB_PATH.exists()`). -/
structure UpstreamDB where
  dbExists : Bool := true
  sessions : List UpstreamSession := []
  messages : List UpstreamMessage := []
  parts : List UpstreamPart := []
deriving DecidableEq, Repr

/-! ### Search mirror store (app/db_search.py) -/

/-- Row of `conversation_index`: lightweight copy of upstream session
metadata, with no archived flag (that lives in the Extension Store). -/
structure SearchConversationIndex where
  id : String
  directory : Option String
  title : Option String
  time_updated : Option Int
deriving DecidableEq, Repr

/-- Row of `part_index`: one indexed text fragment. -/
structure SearchPartIndex where
  id : String
  upstream_session_id : String
  message_id : String
  role : String
  content : String
  time_created : Option Int
deriving DecidableEq, Repr

/-- The search mirror database.  `last_sync_time` models the single
`sync_metadata` key used by the sync engine (already parsed to an integer). -/
structure SearchDB where
  conv_index : List SearchConversationIndex := []
  part_index : List SearchPartIndex := []
  last_sync_time : Option Int := none
deriving DecidableEq, Repr

/-- Whole-system state: Extension Store, search mirror, and whether the
search mirror storage file exists on disk. -/
structure Sys where
  ext : ExtStore := []
  search : SearchDB := {}
  searchFileExists : Bool := false
deriving DecidableEq, Repr

/-! ### Sync engine (app/sync.py) -/

/-- Model of `get_last_sync_time` (app/sync.py). -/
def get_last_sync_time (sdb : SearchDB) : Option Int :=
  sdb.last_sync_time

/-- Model of `set_last_sync_time` (app/sync.py). -/
def set_last_sync_time (sdb : SearchDB) (timestamp : Int) : SearchDB :=
  { sdb with last_sync_time := some timestamp }

/-- Model of `extract_text_from_part` (app/sync.py): only `text` type parts
yield their `text` field, unmodified; every other type yields nothing. -/
def extract_text_from_part (part : UpstreamPart) : Option String :=
  if part.type == "text" then part.text else none

/-- The `part_index` rows produced for one conversation by the message/part
loop of `sync_conversation` (app/sync.py lines 103-133): messages of the
session with role user or assistant, parts whose extracted text is non-None
and not whitespace-only; the stored content is the extracted text as-is. -/
def partRowsFor (up : UpstreamDB) (conv : UpstreamSession) : List SearchPartIndex :=
  ((up.messages.filter (fun m => m.session_id == conv.id)).map (fun m =>
    if m.role == "user" || m.role == "assistant" then
      (up.parts.filter (fun p => p.message_id == m.id)).filterMap (fun p =>
        match extract_text_from_part p with
        | none => none
        | some t =>
          if pyStrip t == "" then none
          else some { id := p.id, upstream_session_id := conv.id,
                      message_id := m.id, role := m.role, content := t,
                      time_created := p.time_created })
    else [])).flatten

/-- The search-mirror half of `sync_conversation` (app/sync.py): upsert the
`conversation_index` row in place, delete all `part_index` rows of the
conversation and append the freshly indexed ones. -/
def sync_conversation_search (up : UpstreamDB) (sdb : SearchDB)
    (conv : UpstreamSession) : SearchDB :=
  let ci :=
    if sdb.conv_index.any (fun c => c.id == conv.id) then
      sdb.conv_index.map (fun c =>
        if c.id == conv.id then
          { c with directory := conv.directory, title := conv.title,
                   time_updated := conv.time_updated }
        else c)
    else
      sdb.conv_index ++
        [{ id := conv.id, directory := conv.directory, title := conv.title,
           time_updated := conv.time_updated }]
  { sdb with
    conv_index := ci,
    part_index :=
      sdb.part_index.filter (fun r => !(r.upstream_session_id == conv.id)) ++
        partRowsFor up conv }

/-- Model of `sync_conversation` (app/sync.py): first ensure the Extension
Store row exists (committed immediately in its own session), then apply the
search-mirror mutations (buffered in the caller's search session). -/
def sync_conversation (up : UpstreamDB) (ext : ExtStore) (sdb : SearchDB)
    (conv : UpstreamSession) : ExtStore × SearchDB :=
  (ensure_conversation_exists ext conv.id, sync_conversation_search up sdb conv)

/-- Candidate selection of `sync_search_index` (app/sync.py lines 157-168).
The Python code tests the watermark with `if last_sync:`, so a missing
watermark and a recorded watermark of 0 both take the full-sync branch;
any other recorded value takes the strictly-greater incremental branch,
which never selects a session whose `time_updated` is NULL. -/
def selectCandidates (up : UpstreamDB) (last : Option Int) : List UpstreamSession :=
  match last with
  | some t =>
    if t == 0 then up.sessions
    else up.sessions.filter (fun s =>
      match s.time_updated with
      | some v => decide (t < v)
      | none => false)
  | none => up.sessions

/-- The successful tail of a sync run: process every candidate, then write
the watermark to the current wall-clock time and commit everything in the
search session at once. -/
def completeSyncRun (up : UpstreamDB) (now : Int)
    (candidates : List UpstreamSession) (sys : Sys) : Sys :=
  let st := candidates.foldl
    (fun (st : ExtStore × SearchDB) c => sync_conversation up st.fst st.snd c)
    (sys.ext, sys.search)
  { sys with ext := st.fst, search := set_last_sync_time st.snd now }

/-- Model of `sync_search_index` (app/sync.py) with an explicit failure
point.  `failAt = some k` models an exception raised while processing
candidate `k` (0-based): the first `k` candidates have been processed, each
of their `ensure_conversation_exists` calls already committed in its own
session, while every search-mirror write and the watermark update are still
uncommitted in the enclosing search session and are therefore rolled back.
`failAt = none` is the normal run. -/
def sync_search_index_run (up : UpstreamDB) (forceFull : Bool) (now : Int)
    (failAt : Option Nat) (sys : Sys) : Sys :=
  if !up.dbExists then sys
  else
    let sys1 : Sys := { sys with searchFileExists := true }
    let last := if forceFull then none else get_last_sync_time sys1.search
    let candidates := selectCandidates up last
    if candidates.isEmpty then sys1
    else
      match failAt with
      | some k =>
        if k < candidates.length then
          { sys1 with
            ext := (candidates.take k).foldl
              (fun e c => ensure_conversation_exists e c.id) sys1.ext }
        else completeSyncRun up now candidates sys1
      | none => completeSyncRun up now candidates sys1

/-- Model of `sync_search_index` (app/sync.py): a run without failure. -/
def sync_search_index (up : UpstreamDB) (forceFull : Bool) (now : Int)
    (sys : Sys) : Sys :=
  sync_search_index_run up forceFull now none sys

/-- Model of `rebuild_search_index` (app/sync.py): delete the search mirror
storage file, then run a full sync.  The Extension Store is untouched by the
deletion. -/
def rebuild_search_index (up : UpstreamDB) (now : Int) (sys : Sys) : Sys :=
  sync_search_index up true now { sys with search := {}, searchFileExists := false }

/-! ### Sync operation sequences -/

/-- One externally triggerable sync operation: an (incremental or full,
possibly failing) sync run, or a full rebuild. -/
inductive SyncOp where
  | sync (up : UpstreamDB) (forceFull : Bool) (now : Int) (failAt : Option Nat)
  | rebuild (up : UpstreamDB) (now : Int)

/-- Apply one sync operation to the system state. -/
def applyOp (sys : Sys) : SyncOp → Sys
  | .sync up forceFull now failAt => sync_search_index_run up forceFull now failAt sys
  | .rebuild up now => rebuild_search_index up now sys

/-- Run a sequence of sync operations from a starting state. -/
def runOps (ops : List SyncOp) (sys : Sys) : Sys :=
  ops.foldl applyOp sys

/-- The upstream database an operation reads from. -/
def SyncOp.upstream : SyncOp → UpstreamDB
  | .sync up _ _ _ => up
  | .rebuild up _ => up

/-! ### Generic descending sort by an integer key (ORDER BY ... DESC) -/

/-- Insert one element into a list sorted by descending key. -/
def insertByKeyDesc {α : Type} (key : α → Int) (x : α) : List α → List α
  | [] => [x]
  | y :: ys => if key y ≤ key x then x :: y :: ys else y :: insertByKeyDesc key x ys

/-- Sort a list by descending key. -/
def sortByKeyDesc {α : Type} (key : α → Int) (l : List α) : List α :=
  l.foldr (insertByKeyDesc key) []

/-! ### Query Engine

The new-generation query layer (`search_conversations`, `list_conversations`,
`list_archived_conversations`) is exercised by the test suite but absent from
`src/app` in this snapshot; the definitions below are modelled from the
specification (spec.md sections 4.3 and 6). -/

/-- A single search match within a conversation (snippet text abstracted;
none of the verified properties concern snippet rendering). -/
structure SearchMatch where
  part_id : String
  message_id : String
  role : String
deriving DecidableEq, Repr

/-- Search result for one conversation (app/models.py `SearchResult`). -/
structure SearchResult where
  conversation_id : String
  title : Option String
  directory : Option String
  time_updated : Option Int
  matchesList : List SearchMatch
  total_matches : Nat
deriving DecidableEq, Repr

/-- The match record carried by a raw matching row. -/
def mkMatch (p : SearchPartIndex) : SearchMatch :=
  { part_id := p.id, message_id := p.message_id, role := p.role }

/-- Modelled from the spec: fold one raw matching row into the grouped
results — increment `total_matches` for an already seen conversation and cap
the carried match list at 3; start a fresh result object otherwise
(spec.md section 4.3, Grouping). -/
def addRow (acc : List SearchResult)
    (pc : SearchPartIndex × SearchConversationIndex) : List SearchResult :=
  if acc.any (fun r => r.conversation_id == pc.fst.upstream_session_id) then
    acc.map (fun r =>
      if r.conversation_id == pc.fst.upstream_session_id then
        { r with
          total_matches := r.total_matches + 1,
          matchesList :=
            if r.matchesList.length < 3 then r.matchesList ++ [mkMatch pc.fst]
            else r.matchesList }
      else r)
  else
    acc ++ [{ conversation_id := pc.fst.upstream_session_id,
              title := pc.snd.title, directory := pc.snd.directory,
              time_updated := pc.snd.time_updated,
              matchesList := [mkMatch pc.fst], total_matches := 1 }]

/-- Modelled from the spec: group ordered raw rows by conversation. -/
def groupRows (rows : List (SearchPartIndex × SearchConversationIndex)) :
    List SearchResult :=
  rows.foldl addRow []

/-- Modelled from the spec: the shared search pipeline of the missing
new-generation `search_conversations` (spec.md section 4.3).  Rows of
`part_index` whose content satisfies the mode's match predicate are joined
against `conversation_index`, rows belonging to conversations in the
Extension Store's archived set are filtered out before grouping, an optional
directory substring filter applies, rows are ordered by conversation recency,
over-fetched at limit*10, grouped by conversation and truncated to `limit`. -/
def searchVisibleRows (ext : ExtStore) (sdb : SearchDB) (matchFn : String → Bool) :
    List (SearchPartIndex × SearchConversationIndex) :=
  ((sdb.part_index.filter (fun p => matchFn p.content)).filterMap (fun p =>
    (sdb.conv_index.find? (fun c => c.id == p.upstream_session_id)).map
      (fun c => (p, c)))).filter
    (fun pc => !((get_archived_conversation_ids ext).contains pc.fst.upstream_session_id))

def searchCore (ext : ExtStore) (sdb : SearchDB) (matchFn : String → Bool)
    (directory : Option String) (limit : Nat) : List SearchResult :=
  let dirFiltered :=
    match directory with
    | none => searchVisibleRows ext sdb matchFn
    | some d => (searchVisibleRows ext sdb matchFn).filter (fun pc =>
        match pc.snd.directory with
        | some dd => strContainsSub d dd
        | none => false)
  (groupRows
    ((sortByKeyDesc (fun pc => pc.snd.time_updated.getD 0) dirFiltered).take
      (limit * 10))).take limit

/-- Modelled from the spec: full-text match predicate — the escaped query
forces literal phrase semantics, and the index is case-insensitive, so a
content row matches when it contains the trimmed query as a substring,
ignoring ASCII case (spec.md section 4.3, full-text mode). -/
def ftsPhraseMatch (safeQuery content : String) : Bool :=
  strContainsSub (lowerStr safeQuery) (lowerStr content)

/-- Modelled from the spec: the missing new-generation `search_conversations`
in full-text mode.  Empty mirror storage or a whitespace-only query yield an
empty result list. -/
def search_conversations (sys : Sys) (query : String)
    (directory : Option String) (limit : Nat) : List SearchResult :=
  if !sys.searchFileExists then []
  else if pyStrip query == "" then []
  else searchCore sys.ext sys.search (ftsPhraseMatch (pyStrip query)) directory limit

/-- Modelled from the spec: the regex mode of the missing new-generation
`search_conversations`.  The compiled case-insensitive pattern is abstracted
as a match predicate; `none` models a pattern that failed to compile, for
which the search returns an empty list. -/
def search_conversations_regex (sys : Sys) (pattern : Option (String → Bool))
    (directory : Option String) (limit : Nat) : List SearchResult :=
  if !sys.searchFileExists then []
  else
    match pattern with
    | none => []
    | some f => searchCore sys.ext sys.search f directory limit

/-! ### Listing layer (spec.md section 6), also absent from src/app -/

/-- Conversation summary as produced by the listing layer. -/
structure ConversationSummary where
  id : String
  title : Option String
  directory : Option String
  parent_id : Option String
  time_updated : Option Int
deriving DecidableEq, Repr

/-- Modelled from the spec: overlay the Extension Store's title override on
an upstream session. -/
def applyOverlay (ext : ExtStore) (s : UpstreamSession) : ConversationSummary :=
  let ov :=
    match get_conversation ext s.id with
    | some c => c.title
    | none => none
  { id := s.id,
    title :=
      match ov with
      | some t => some t
      | none => s.title,
    directory := s.directory, parent_id := s.parent_id,
    time_updated := s.time_updated }

/-- Modelled from the spec: the missing new-generation `list_conversations`
(spec.md section 6): read the Extension Store archived-id set, keep only
non-archived upstream sessions, overlay extension fields, filter out child
and subagent-titled sessions unless `showAll`, sort by `time_updated`
descending. -/
def list_conversations (ext : ExtStore) (up : UpstreamDB) (showAll : Bool) :
    List ConversationSummary :=
  let archivedSet := get_archived_conversation_ids ext
  let base := up.sessions.filter (fun s => !(archivedSet.contains s.id))
  let overlaid := base.map (applyOverlay ext)
  let inScope :=
    if showAll then overlaid
    else overlaid.filter (fun s =>
      s.parent_id.isNone &&
        !(strContainsSub "subagent" (lowerStr (s.title.getD ""))))
  sortByKeyDesc (fun s => s.time_updated.getD 0) inScope

/-! ### The archive-then-rebuild scenario -/

/-- Archive a conversation in the Extension Store, then rebuild the search
index from the given upstream database. -/
def archivedThenRebuilt (sys : Sys) (up : UpstreamDB) (id : String) (now : Int) : Sys :=
  rebuild_search_index up now
    { sys with ext := (set_conversation_archived sys.ext id true).fst }

/-! ### What it means for an indexed row to be derived from an upstream database -/

/-- A `part_index` row legitimately derived from an upstream database: it
stems from a message of its conversation with role user or assistant and a
part of type text whose raw text is exactly the row's content, which is not
whitespace-only. -/
def partRowOK (up : UpstreamDB) (r : SearchPartIndex) : Prop :=
  ∃ m ∈ up.messages, ∃ p ∈ up.parts,
    m.session_id = r.upstream_session_id ∧ m.id = r.message_id ∧
    r.role = m.role ∧ (m.role = "user" ∨ m.role = "assistant") ∧
    p.message_id = m.id ∧ p.id = r.id ∧ p.type = "text" ∧
    p.text = some r.content ∧ pyStrip r.content ≠ ""

/-! ### Concrete fixtures used by closed theorems and witnesses -/

/-- Upstream store of the end-to-end scenario: `sess-1` in /proj/a with one
user text part "Hello from user", `sess-2` in /proj/b with one assistant text
part "Hello from assistant". -/
def upC2 : UpstreamDB :=
  { dbExists := true,
    sessions := [
      { id := "sess-1", directory := some "/proj/a", title := some "Session one",
        time_updated := some 1000 },
      { id := "sess-2", directory := some "/proj/b", title := some "Session two",
        time_updated := some 2000 } ],
    messages := [
      { id := "m1", session_id := "sess-1", role := "user" },
      { id := "m2", session_id := "sess-2", role := "assistant" } ],
    parts := [
      { id := "p1", message_id := "m1", type := "text", text := some "Hello from user" },
      { id := "p2", message_id := "m2", type := "text",
        text := some "Hello from assistant" } ] }

/-- System state after a completed sync of `upC2` from a fresh state. -/
def sysC2 : Sys := sync_search_index upC2 false 5000 {}

/-- One part_index row produced by syncing `upC2`. -/
def rowC4 : SearchPartIndex :=
  { id := "p1", upstream_session_id := "sess-1", message_id := "m1",
    role := "user", content := "Hello from user", time_created := none }

/-- A single sync run over `upC2`, as an operation sequence. -/
def opsC4 : List SyncOp := [SyncOp.sync upC2 false 5000 none]

/-- Upstream store holding one session whose `time_updated` equals 0. -/
def upC5 : UpstreamDB :=
  { dbExists := true, sessions := [ { id := "sess-zero", time_updated := some 0 } ] }

/-- System state whose search mirror has a recorded watermark of 0. -/
def sysC5 : Sys :=
  { ext := [],
    search := { conv_index := [], part_index := [], last_sync_time := some 0 },
    searchFileExists := true }

/-- A session whose update time sits exactly at the watermark value 5. -/
def sessT5 : UpstreamSession := { id := "w5a", time_updated := some 5 }

/-- A session updated strictly after the watermark value 5. -/
def sessT6 : UpstreamSession := { id := "w5b", time_updated := some 6 }

/-- Upstream store for the incremental-boundary witness. -/
def upC5w : UpstreamDB := { dbExists := true, sessions := [sessT5, sessT6] }

/-- An Extension Store with one fully populated row. -/
def extC7 : ExtStore :=
  [("a", { title := some "T", slug := some "S", archived := true })]

/-- An Extension Store in which conversation s1 is archived. -/
def extC3 : ExtStore := [("s1", { title := none, slug := none, archived := true })]

/-- A search mirror containing an indexed row for the archived conversation s1. -/
def sdbC3 : SearchDB :=
  { conv_index := [{ id := "s1", directory := some "/proj/a", title := none,
                     time_updated := some 1 }],
    part_index := [{ id := "p1", upstream_session_id := "s1", message_id := "m1",
                     role := "user", content := "Hello from user",
                     time_created := none }],
    last_sync_time := none }

/-- System state combining `extC3` and `sdbC3`. -/
def sysC3 : Sys := { ext := extC3, search := sdbC3, searchFileExists := true }

/-- Upstream store with one user text part whose text carries surrounding
whitespace. -/
def upC9 : UpstreamDB :=
  { dbExists := true,
    sessions := [ { id := "s9", time_updated := some 1 } ],
    messages := [ { id := "m9", session_id := "s9", role := "user" } ],
    parts := [ { id := "p9", message_id := "m9", type := "text",
                 text := some " hi " } ] }

/-- The session record of `upC9`. -/
def s9conv : UpstreamSession := { id := "s9", time_updated := some 1 }

/-- The part_index row that syncing `upC9` produces. -/
def rowC9 : SearchPartIndex :=
  { id := "p9", upstream_session_id := "s9", message_id := "m9",
    role := "user", content := " hi ", time_created := none }

/-- Upstream store with two sessions, for the failing-sync witness. -/
def upC10 : UpstreamDB :=
  { dbExists := true,
    sessions := [ { id := "c10-a", time_updated := some 10 },
                  { id := "c10-b", time_updated := some 20 } ] }

/-! ### Basic lemmas about the Extension Store operations -/

theorem get_conversation_cons (a : String × Conversation) (db : ExtStore) (id : String) :
    get_conversation (a :: db) id =
      if a.fst == id then some a.snd else get_conversation db id := by
  cases h : a.fst == id
  · simp [get_conversation, List.find?_cons_of_neg, h]
  · simp [get_conversation, List.find?_cons_of_pos, h]

theorem get_conversation_map_update (db : ExtStore) (id : String)
    (f : Conversation → Conversation) :
    get_conversation
        (db.map (fun p => if p.fst == id then (p.fst, f p.snd) else p)) id =
      (get_conversation db id).map f := by
  induction db with
  | nil => rfl
  | cons a db ih =>
    cases h : a.fst == id
    · simp only [List.map_cons, h, if_neg, Bool.false_eq_true, not_false_eq_true,
        get_conversation_cons]
      exact ih
    · simp only [List.map_cons, if_pos h, get_conversation_cons, h, if_pos]
      rfl

theorem get_conversation_storeRow (db : ExtStore) (id : String) (c : Conversation) :
    get_conversation (storeRow db id c) id = some c := by
  unfold storeRow
  cases h : (get_conversation db id).isSome
  · simp only [h, Bool.false_eq_true, if_neg, not_false_eq_true]
    rw [get_conversation_cons, if_pos (by simp)]
  · rw [if_pos (by simp [h])]
    obtain ⟨x, hx⟩ := Option.isSome_iff_exists.mp h
    have := get_conversation_map_update db id (fun _ => c)
    simp only at this
    rw [this, hx]
    rfl

theorem ensure_of_some (db : ExtStore) (id : String) (c : Conversation)
    (h : get_conversation db id = some c) :
    ensure_conversation_exists db id = db := by
  unfold ensure_conversation_exists
  rw [h]

theorem get_ensure_self (db : ExtStore) (id : String) :
    (get_conversation (ensure_conversation_exists db id) id).isSome = true := by
  unfold ensure_conversation_exists
  cases h : get_conversation db id
  · rw [get_conversation_cons, if_pos (by simp)]
    rfl
  · simp [h]

theorem get_ensure_preserve {db : ExtStore} {i : String} {c : Conversation}
    (j : String) (h : get_conversation db i = some c) :
    get_conversation (ensure_conversation_exists db j) i = some c := by
  unfold ensure_conversation_exists
  cases hj : get_conversation db j
  · cases hji : (j == i)
    · rw [get_conversation_cons, if_neg (by simp [hji])]
      exact h
    · have : get_conversation db i = none := by rw [← eq_of_beq hji]; exact hj
      rw [h] at this
      cases this
  · exact h

theorem foldl_ensure_preserve :
    ∀ (l : List UpstreamSession) (db : ExtStore) (i : String) (c : Conversation),
      get_conversation db i = some c →
      get_conversation
        (List.foldl (fun e s => ensure_conversation_exists e s.id) db l) i = some c := by
  intro l
  induction l with
  | nil => intro db i c h; exact h
  | cons a t ih => intro db i c h; exact ih _ _ _ (get_ensure_preserve a.id h)

theorem foldl_ensure_isSome {db : ExtStore} {i : String}
    (l : List UpstreamSession) (h : (get_conversation db i).isSome = true) :
    (get_conversation
      (List.foldl (fun e s => ensure_conversation_exists e s.id) db l) i).isSome = true := by
  obtain ⟨c, hc⟩ := Option.isSome_iff_exists.mp h
  rw [foldl_ensure_preserve l db i c hc]
  rfl

theorem foldl_ensure_mem :
    ∀ (l : List UpstreamSession) (db : ExtStore) (s : UpstreamSession), s ∈ l →
      (get_conversation
        (List.foldl (fun e x => ensure_conversation_exists e x.id) db l) s.id).isSome = true := by
  intro l
  induction l with
  | nil => intro db s h; cases h
  | cons a t ih =>
    intro db s h
    rcases List.mem_cons.mp h with h1 | h2
    · subst h1
      exact foldl_ensure_isSome t (get_ensure_self db s.id)
    · exact ih _ _ h2

theorem is_archived_iff (db : ExtStore) (id : String) :
    is_conversation_archived db id = true ↔
      ∃ c, get_conversation db id = some c ∧ c.archived = true := by
  unfold is_conversation_archived
  cases h : get_conversation db id <;> simp [h]

theorem is_archived_foldl_ensure {db : ExtStore} {id : String}
    (l : List UpstreamSession) (h : is_conversation_archived db id = true) :
    is_conversation_archived
      (List.foldl (fun e s => ensure_conversation_exists e s.id) db l) id = true := by
  obtain ⟨c, hc, ha⟩ := (is_archived_iff db id).mp h
  apply (is_archived_iff _ id).mpr
  exact ⟨c, foldl_ensure_preserve l db id c hc, ha⟩

theorem is_archived_set_self (db : ExtStore) (id : String) (b : Bool) :
    is_conversation_archived (set_conversation_archived db id b).fst id = b := by
  unfold set_conversation_archived
  cases h : get_conversation db id
  · simp only [is_conversation_archived]
    rw [get_conversation_cons, if_pos (by simp)]
  · simp only [is_conversation_archived]
    have := get_conversation_map_update db id (fun c => { c with archived := b })
    simp only at this
    rw [this, h]
    rfl

theorem archived_mem_ids {db : ExtStore} {id : String}
    (h : is_conversation_archived db id = true) :
    id ∈ get_archived_conversation_ids db := by
  obtain ⟨c, hc, ha⟩ := (is_archived_iff db id).mp h
  unfold get_conversation at hc
  obtain ⟨pr, hfind, hsnd⟩ : ∃ pr, db.find? (fun p => p.fst == id) = some pr ∧ pr.snd = c := by
    cases hf : db.find? (fun p => p.fst == id) with
    | none => rw [hf] at hc; cases hc
    | some pr =>
      rw [hf] at hc
      exact ⟨pr, rfl, Option.some.inj hc⟩
  have hmem : pr ∈ db := List.mem_of_find?_eq_some hfind
  have hpred : (pr.fst == id) = true :=
    @List.find?_some _ (fun q => q.fst == id) pr db hfind
  have hfst : pr.fst = id := eq_of_beq hpred
  have hf2 : pr ∈ db.filter (fun p => p.snd.archived) :=
    List.mem_filter.mpr ⟨hmem, by rw [hsnd]; exact ha⟩
  have hf3 : pr.fst ∈ (db.filter (fun p => p.snd.archived)).map (fun p => p.fst) :=
    List.mem_map_of_mem _ hf2
  unfold get_archived_conversation_ids
  exact hfst ▸ hf3

theorem not_archived_of_contains_false {db : ExtStore} {id : String}
    (h : (get_archived_conversation_ids db).contains id = false) :
    is_conversation_archived db id = true → False := by
  intro ha
  have hmem := archived_mem_ids ha
  have : (get_archived_conversation_ids db).contains id = true := by
    simpa [List.contains, List.elem_iff] using hmem
  rw [h] at this
  cases this

/-! ### Membership lemmas for the sort and grouping pipeline -/

theorem mem_insertByKeyDesc {α : Type} (key : α → Int) (x a : α) :
    ∀ (l : List α), a ∈ insertByKeyDesc key x l → a = x ∨ a ∈ l := by
  intro l
  induction l with
  | nil =>
    intro h
    rcases List.mem_cons.mp h with h1 | h1
    · exact Or.inl h1
    · cases h1
  | cons y ys ih =>
    intro h
    unfold insertByKeyDesc at h
    by_cases hc : key y ≤ key x
    · rw [if_pos hc] at h
      rcases List.mem_cons.mp h with h1 | h2
      · exact Or.inl h1
      · exact Or.inr h2
    · rw [if_neg hc] at h
      rcases List.mem_cons.mp h with h1 | h2
      · exact Or.inr (h1 ▸ List.mem_cons_self y ys)
      · rcases ih h2 with h3 | h4
        · exact Or.inl h3
        · exact Or.inr (List.mem_cons_of_mem _ h4)

theorem mem_sortByKeyDesc {α : Type} (key : α → Int) (a : α) :
    ∀ (l : List α), a ∈ sortByKeyDesc key l → a ∈ l := by
  intro l
  induction l with
  | nil => intro h; exact h
  | cons y ys ih =>
    intro h
    have hs : sortByKeyDesc key (y :: ys) =
        insertByKeyDesc key y (sortByKeyDesc key ys) := rfl
    rw [hs] at h
    rcases mem_insertByKeyDesc key y a _ h with h1 | h2
    · exact h1 ▸ List.mem_cons_self y ys
    · exact List.mem_cons_of_mem _ (ih h2)

theorem mem_addRow_ids (acc : List SearchResult)
    (pc : SearchPartIndex × SearchConversationIndex) (r : SearchResult)
    (h : r ∈ addRow acc pc) :
    (∃ a ∈ acc, r.conversation_id = a.conversation_id) ∨
      r.conversation_id = pc.fst.upstream_session_id := by
  unfold addRow at h
  by_cases hc : acc.any (fun x => x.conversation_id == pc.fst.upstream_session_id) = true
  · rw [if_pos hc] at h
    obtain ⟨a, ha, hEq⟩ := List.mem_map.mp h
    by_cases hid : a.conversation_id == pc.fst.upstream_session_id
    · rw [if_pos hid] at hEq
      exact Or.inl ⟨a, ha, by rw [← hEq]⟩
    · rw [if_neg hid] at hEq
      exact Or.inl ⟨a, ha, by rw [← hEq]⟩
  · rw [if_neg hc] at h
    rcases List.mem_append.mp h with h1 | h2
    · exact Or.inl ⟨r, h1, rfl⟩
    · rcases List.mem_cons.mp h2 with h3 | h3
      · exact Or.inr (by rw [h3])
      · cases h3

theorem mem_foldl_addRow :
    ∀ (rows : List (SearchPartIndex × SearchConversationIndex))
      (acc : List SearchResult) (r : SearchResult),
      r ∈ List.foldl addRow acc rows →
      (∃ a ∈ acc, r.conversation_id = a.conversation_id) ∨
        ∃ pc ∈ rows, r.conversation_id = pc.fst.upstream_session_id := by
  intro rows
  induction rows with
  | nil => intro acc r h; exact Or.inl ⟨r, h, rfl⟩
  | cons b t ih =>
    intro acc r h
    rcases ih _ _ h with ⟨a, ha, hid⟩ | ⟨pc, hpc, hid⟩
    · rcases mem_addRow_ids _ _ _ ha with ⟨a2, ha2, hid2⟩ | hb
      · exact Or.inl ⟨a2, ha2, hid.trans hid2⟩
      · exact Or.inr ⟨b, List.mem_cons_self _ _, hid.trans hb⟩
    · exact Or.inr ⟨pc, List.mem_cons_of_mem _ hpc, hid⟩

theorem groupRows_ids (rows : List (SearchPartIndex × SearchConversationIndex))
    (r : SearchResult) (h : r ∈ groupRows rows) :
    ∃ pc ∈ rows, r.conversation_id = pc.fst.upstream_session_id := by
  rcases mem_foldl_addRow rows [] r h with ⟨a, ha, _⟩ | hr
  · cases ha
  · exact hr

/-! ### Archive exclusion through the query pipeline -/

theorem searchCore_excludes {ext : ExtStore} {id : String}
    (sdb : SearchDB) (matchFn : String → Bool) (dir : Option String) (lim : Nat)
    (h : is_conversation_archived ext id = true) :
    ∀ r ∈ searchCore ext sdb matchFn dir lim, r.conversation_id ≠ id := by
  intro r hr heq
  unfold searchCore at hr
  have hr2 := List.take_subset _ _ hr
  obtain ⟨pc, hpc, hid⟩ := groupRows_ids _ _ hr2
  have hpc2 := List.take_subset _ _ hpc
  have hpc3 := mem_sortByKeyDesc _ _ _ hpc2
  have hpcvis : pc ∈ searchVisibleRows ext sdb matchFn := by
    cases dir with
    | none => exact hpc3
    | some d => exact (List.mem_filter.mp hpc3).1
  unfold searchVisibleRows at hpcvis
  have hfil := List.mem_filter.mp hpcvis
  have hcontains : (get_archived_conversation_ids ext).contains pc.fst.upstream_session_id = false := by
    cases hcf : (get_archived_conversation_ids ext).contains pc.fst.upstream_session_id
    · rfl
    · rw [hcf] at hfil
      cases hfil.2
  have hsid : pc.fst.upstream_session_id = id := by rw [← hid, heq]
  rw [hsid] at hcontains
  exact not_archived_of_contains_false hcontains h

theorem search_conversations_excludes {sys : Sys} {id : String}
    (q : String) (dir : Option String) (lim : Nat)
    (h : is_conversation_archived sys.ext id = true) :
    ∀ r ∈ search_conversations sys q dir lim, r.conversation_id ≠ id := by
  intro r hr
  unfold search_conversations at hr
  split at hr
  · cases hr
  · split at hr
    · cases hr
    · exact searchCore_excludes _ _ _ _ h r hr

theorem search_conversations_regex_excludes {sys : Sys} {id : String}
    (pattern : Option (String → Bool)) (dir : Option String) (lim : Nat)
    (h : is_conversation_archived sys.ext id = true) :
    ∀ r ∈ search_conversations_regex sys pattern dir lim, r.conversation_id ≠ id := by
  intro r hr
  unfold search_conversations_regex at hr
  split at hr
  · cases hr
  · cases pattern with
    | none => cases hr
    | some f => exact searchCore_excludes _ _ _ _ h r hr

theorem list_conversations_excludes {ext : ExtStore} {id : String}
    (up : UpstreamDB) (showAll : Bool)
    (h : is_conversation_archived ext id = true) :
    ∀ s ∈ list_conversations ext up showAll, s.id ≠ id := by
  intro s hs heq
  unfold list_conversations at hs
  have hs1 := mem_sortByKeyDesc _ _ _ hs
  have hs2 : s ∈ (up.sessions.filter
      (fun x => !(get_archived_conversation_ids ext).contains x.id)).map (applyOverlay ext) := by
    cases showAll with
    | true => exact hs1
    | false =>
      simp only [Bool.false_eq_true, if_neg, not_false_eq_true] at hs1
      exact (List.mem_filter.mp hs1).1
  obtain ⟨u, hu, hmap⟩ := List.mem_map.mp hs2
  have hufil := List.mem_filter.mp hu
  have hid : s.id = u.id := by rw [← hmap]; rfl
  have hcontains : (get_archived_conversation_ids ext).contains u.id = false := by
    cases hcf : (get_archived_conversation_ids ext).contains u.id
    · rfl
    · rw [hcf] at hufil
      cases hufil.2
  have hsid : u.id = id := by rw [← hid, heq]
  rw [hsid] at hcontains
  exact not_archived_of_contains_false hcontains h

/-! ### Provenance of part_index rows through the sync engine -/

theorem partRowsFor_ok {up : UpstreamDB} {conv : UpstreamSession}
    {r : SearchPartIndex} (h : r ∈ partRowsFor up conv) : partRowOK up r := by
  unfold partRowsFor at h
  rw [List.mem_flatten] at h
  obtain ⟨bucket, hb, hrb⟩ := h
  obtain ⟨m, hm, hbe⟩ := List.mem_map.mp hb
  have hmfil := List.mem_filter.mp hm
  rw [← hbe] at hrb
  cases hrole : (m.role == "user" || m.role == "assistant")
  · rw [if_neg (by simp [hrole])] at hrb
    cases hrb
  · rw [if_pos (by simp [hrole])] at hrb
    obtain ⟨p, hp, hpf⟩ := List.mem_filterMap.mp hrb
    have hpfil := List.mem_filter.mp hp
    have hrole2 : m.role = "user" ∨ m.role = "assistant" := by
      rcases Bool.or_eq_true_iff.mp hrole with h1 | h1
      · exact Or.inl (eq_of_beq h1)
      · exact Or.inr (eq_of_beq h1)
    split at hpf
    · cases hpf
    · rename_i t hext
      split at hpf
      · cases hpf
      · rename_i hstrip
        obtain rfl := Option.some.inj hpf
        have hty : (p.type == "text") = true := by
          unfold extract_text_from_part at hext
          cases hty2 : (p.type == "text")
          · rw [if_neg (by simp [hty2])] at hext; cases hext
          · rfl
        have htext : p.text = some t := by
          unfold extract_text_from_part at hext
          rw [if_pos (by simp [hty])] at hext
          exact hext
        refine ⟨m, hmfil.1, p, hpfil.1, eq_of_beq hmfil.2, rfl, rfl, hrole2,
          eq_of_beq hpfil.2, rfl, eq_of_beq hty, htext, ?_⟩
        intro hbad
        exact hstrip (beq_iff_eq.mpr hbad)

theorem sync_conversation_search_part_mem {up : UpstreamDB} {sdb : SearchDB}
    {conv : UpstreamSession} {r : SearchPartIndex}
    (h : r ∈ (sync_conversation_search up sdb conv).part_index) :
    r ∈ sdb.part_index ∨ r ∈ partRowsFor up conv := by
  unfold sync_conversation_search at h
  simp only at h
  rcases List.mem_append.mp h with h1 | h2
  · exact Or.inl (List.mem_filter.mp h1).1
  · exact Or.inr h2

theorem foldl_sync_part_mem (up : UpstreamDB) :
    ∀ (l : List UpstreamSession) (e : ExtStore) (s : SearchDB) (r : SearchPartIndex),
      r ∈ (List.foldl
        (fun (st : ExtStore × SearchDB) c => sync_conversation up st.fst st.snd c)
        (e, s) l).snd.part_index →
      r ∈ s.part_index ∨ ∃ c ∈ l, r ∈ partRowsFor up c := by
  intro l
  induction l with
  | nil => intro e s r h; exact Or.inl h
  | cons a t ih =>
    intro e s r h
    have hstep :
        List.foldl (fun (st : ExtStore × SearchDB) c => sync_conversation up st.fst st.snd c)
          (e, s) (a :: t) =
        List.foldl (fun (st : ExtStore × SearchDB) c => sync_conversation up st.fst st.snd c)
          (ensure_conversation_exists e a.id, sync_conversation_search up s a) t := rfl
    rw [hstep] at h
    rcases ih _ _ _ h with h1 | ⟨c, hc, hr⟩
    · rcases sync_conversation_search_part_mem h1 with h2 | h3
      · exact Or.inl h2
      · exact Or.inr ⟨a, List.mem_cons_self _ _, h3⟩
    · exact Or.inr ⟨c, List.mem_cons_of_mem _ hc, hr⟩

theorem completeSyncRun_part_mem {up : UpstreamDB} {now : Int}
    {candidates : List UpstreamSession} {sys : Sys} {r : SearchPartIndex}
    (h : r ∈ (completeSyncRun up now candidates sys).search.part_index) :
    r ∈ sys.search.part_index ∨ partRowOK up r := by
  unfold completeSyncRun set_last_sync_time at h
  simp only at h
  rcases foldl_sync_part_mem up candidates sys.ext sys.search r h with h1 | ⟨c, _, hr⟩
  · exact Or.inl h1
  · exact Or.inr (partRowsFor_ok hr)

theorem run_part_mem {up : UpstreamDB} {forceFull : Bool} {now : Int}
    {failAt : Option Nat} {sys : Sys} {r : SearchPartIndex}
    (h : r ∈ (sync_search_index_run up forceFull now failAt sys).search.part_index) :
    r ∈ sys.search.part_index ∨ partRowOK up r := by
  unfold sync_search_index_run at h
  simp only at h
  repeat' split at h
  all_goals first
    | exact Or.inl h
    | exact completeSyncRun_part_mem h

theorem rebuild_part_mem {up : UpstreamDB} {now : Int} {sys : Sys}
    {r : SearchPartIndex}
    (h : r ∈ (rebuild_search_index up now sys).search.part_index) :
    partRowOK up r := by
  unfold rebuild_search_index sync_search_index at h
  rcases run_part_mem h with h1 | h2
  · cases h1
  · exact h2

theorem applyOp_part_mem {sys : Sys} {op : SyncOp} {r : SearchPartIndex}
    (h : r ∈ (applyOp sys op).search.part_index) :
    r ∈ sys.search.part_index ∨ partRowOK op.upstream r := by
  cases op with
  | sync up ff now fa => exact run_part_mem h
  | rebuild up now => exact Or.inr (rebuild_part_mem h)

theorem runOps_part_mem :
    ∀ (ops : List SyncOp) (sys : Sys) (r : SearchPartIndex),
      r ∈ (runOps ops sys).search.part_index →
      r ∈ sys.search.part_index ∨ ∃ op ∈ ops, partRowOK op.upstream r := by
  intro ops
  induction ops with
  | nil => intro sys r h; exact Or.inl h
  | cons o t ih =>
    intro sys r h
    rcases ih (applyOp sys o) r h with h1 | ⟨op, hop, hr⟩
    · rcases applyOp_part_mem h1 with h2 | h3
      · exact Or.inl h2
      · exact Or.inr ⟨o, List.mem_cons_self _ _, h3⟩
    · exact Or.inr ⟨op, List.mem_cons_of_mem _ hop, hr⟩

/-! ### The Extension Store through a sync run -/

theorem foldl_sync_fst (up : UpstreamDB) :
    ∀ (l : List UpstreamSession) (e : ExtStore) (s : SearchDB),
      (List.foldl
        (fun (st : ExtStore × SearchDB) c => sync_conversation up st.fst st.snd c)
        (e, s) l).fst =
      List.foldl (fun e c => ensure_conversation_exists e c.id) e l := by
  intro l
  induction l with
  | nil => intro e s; rfl
  | cons a t ih => intro e s; exact ih _ _

theorem completeSyncRun_ext (up : UpstreamDB) (now : Int)
    (candidates : List UpstreamSession) (sys : Sys) :
    (completeSyncRun up now candidates sys).ext =
      List.foldl (fun e c => ensure_conversation_exists e c.id) sys.ext candidates := by
  unfold completeSyncRun
  simp only
  exact foldl_sync_fst up candidates sys.ext sys.search

theorem is_archived_run_preserve {sys : Sys} {id : String}
    (up : UpstreamDB) (forceFull : Bool) (now : Int) (failAt : Option Nat)
    (h : is_conversation_archived sys.ext id = true) :
    is_conversation_archived
      (sync_search_index_run up forceFull now failAt sys).ext id = true := by
  unfold sync_search_index_run
  simp only
  repeat' split
  all_goals first
    | exact h
    | exact is_archived_foldl_ensure _ h
    | (rw [completeSyncRun_ext]; exact is_archived_foldl_ensure _ h)

theorem is_archived_rebuild_preserve {sys : Sys} {id : String}
    (up : UpstreamDB) (now : Int)
    (h : is_conversation_archived sys.ext id = true) :
    is_conversation_archived (rebuild_search_index up now sys).ext id = true := by
  unfold rebuild_search_index sync_search_index
  exact is_archived_run_preserve up true now none h

/-! ### The failing run and the watermark -/

theorem run_fail_state (up : UpstreamDB) (forceFull : Bool) (now : Int)
    (sys : Sys) (k : Nat)
    (hdb : up.dbExists = true)
    (hk : k < (selectCandidates up
      (if forceFull then none else get_last_sync_time sys.search)).length) :
    (sync_search_index_run up forceFull now (some k) sys).search = sys.search ∧
    (sync_search_index_run up forceFull now (some k) sys).ext =
      List.foldl (fun e c => ensure_conversation_exists e c.id) sys.ext
        ((selectCandidates up
          (if forceFull then none else get_last_sync_time sys.search)).take k) := by
  have hne : (selectCandidates up
      (if forceFull then none else get_last_sync_time sys.search)).isEmpty = false := by
    cases hl : selectCandidates up
        (if forceFull then none else get_last_sync_time sys.search) with
    | nil => rw [hl] at hk; cases hk
    | cons a t => rfl
  unfold sync_search_index_run
  rw [if_neg (by simp [hdb])]
  simp only
  rw [if_neg (by simp [hne]), if_pos hk]
  exact ⟨rfl, rfl⟩

theorem run_watermark (up : UpstreamDB) (forceFull : Bool) (now : Int) (sys : Sys) :
    get_last_sync_time (sync_search_index up forceFull now sys).search =
      (if up.dbExists &&
          !((selectCandidates up
            (if forceFull then none else get_last_sync_time sys.search)).isEmpty)
       then some now
       else get_last_sync_time sys.search) := by
  unfold sync_search_index sync_search_index_run
  cases hdb : up.dbExists with
  | false => rw [if_pos (by simp [hdb])]; simp
  | true =>
    rw [if_neg (by simp [hdb])]
    simp only
    cases hne : (selectCandidates up
        (if forceFull then none else get_last_sync_time sys.search)).isEmpty with
    | true => simp [get_last_sync_time]
    | false => simp [completeSyncRun, get_last_sync_time, set_last_sync_time]

/-! ### Claim theorems -/

/-- C1: Archived state survives a full index rebuild: after
`set_conversation_archived(id, True)` followed by `rebuild_search_index()`
(which deletes the mirror storage and performs a full sync),
`is_conversation_archived(id)` still returns true, and the conversation is
excluded from listings and from search results in every mode. -/
theorem C1_archive_survives_rebuild (sys : Sys) (up : UpstreamDB) (id : String)
    (now : Int) :
    is_conversation_archived (archivedThenRebuilt sys up id now).ext id = true ∧
    (∀ q dir lim, ∀ r ∈ search_conversations (archivedThenRebuilt sys up id now) q dir lim,
      r.conversation_id ≠ id) ∧
    (∀ matchFn dir lim,
      ∀ r ∈ searchCore (archivedThenRebuilt sys up id now).ext
        (archivedThenRebuilt sys up id now).search matchFn dir lim,
      r.conversation_id ≠ id) ∧
    (∀ showAll,
      ∀ s ∈ list_conversations (archivedThenRebuilt sys up id now).ext up showAll,
      s.id ≠ id) := by
  have harch : is_conversation_archived (archivedThenRebuilt sys up id now).ext id = true := by
    unfold archivedThenRebuilt
    exact is_archived_rebuild_preserve up now (is_archived_set_self sys.ext id true)
  refine ⟨harch, ?_, ?_, ?_⟩
  · intro q dir lim
    exact search_conversations_excludes q dir lim harch
  · intro matchFn dir lim
    exact searchCore_excludes _ matchFn dir lim harch
  · intro showAll
    exact list_conversations_excludes up showAll harch

/-- C2: End-to-end search inclusion: after a completed sync of an upstream
store holding sess-1 (/proj/a, user text "Hello from user") and sess-2
(/proj/b, assistant text "Hello from assistant"), searching "Hello" returns
result objects for both conversations, and searching "Hello" with directory
filter /proj/a returns only sess-1. -/
theorem C2_end_to_end_search :
    (search_conversations sysC2 "Hello" none 50).map (fun r => r.conversation_id) =
      ["sess-2", "sess-1"] ∧
    (search_conversations sysC2 "Hello" (some "/proj/a") 50).map
        (fun r => r.conversation_id) = ["sess-1"] := by
  decide

/-- C3: Search excludes archived conversations by consulting the Extension
Store: for an archived conversation id, no result of the search pipeline (in
any match mode, hence in both full-text and regex mode) carries that id —
rows of archived conversations are filtered out before grouping. -/
theorem C3_search_excludes_archived (sys : Sys) (matchFn : String → Bool)
    (q : String) (pattern : Option (String → Bool)) (dir : Option String)
    (lim : Nat) (id : String)
    (h : is_conversation_archived sys.ext id = true) :
    (∀ r ∈ searchCore sys.ext sys.search matchFn dir lim, r.conversation_id ≠ id) ∧
    (∀ r ∈ search_conversations sys q dir lim, r.conversation_id ≠ id) ∧
    (∀ r ∈ search_conversations_regex sys pattern dir lim, r.conversation_id ≠ id) :=
  ⟨searchCore_excludes sys.search matchFn dir lim h,
   search_conversations_excludes q dir lim h,
   search_conversations_regex_excludes pattern dir lim h⟩

/-- Witness for C3 at a concrete archived conversation with a matching
indexed row. -/
theorem C3_search_excludes_archived_witness :
    (∀ r ∈ searchCore sysC3.ext sysC3.search (fun _ => true) none 50,
      r.conversation_id ≠ "s1") ∧
    (∀ r ∈ search_conversations sysC3 "Hello" none 50, r.conversation_id ≠ "s1") ∧
    (∀ r ∈ search_conversations_regex sysC3 (some (fun _ => true)) none 50,
      r.conversation_id ≠ "s1") :=
  C3_search_excludes_archived sysC3 (fun _ => true) "Hello" (some (fun _ => true))
    none 50 "s1" (by decide)

/-- C4: PartIndex row invariant: after any sequence of sync operations
starting from the empty mirror, every part_index row stems from a message
with role user or assistant and a text part with non-blank text of one of
the upstream databases involved; tool-call/tool-result/file/image parts and
messages of other roles never produce a row. -/
theorem C4_partindex_row_invariant (ops : List SyncOp) (r : SearchPartIndex)
    (h : r ∈ (runOps ops {}).search.part_index) :
    ∃ op ∈ ops, partRowOK op.upstream r := by
  rcases runOps_part_mem ops {} r h with h0 | h1
  · cases h0
  · exact h1

/-- Witness for C4 at a concrete one-run operation sequence and row. -/
theorem C4_partindex_row_invariant_witness :
    ∃ op ∈ opsC4, partRowOK op.upstream rowC4 :=
  C4_partindex_row_invariant opsC4 rowC4 (by decide)

/-- C5 counterexample: with a recorded watermark of exactly 0, an
incremental sync (forceFull false) takes the full-sync branch because the
code tests the watermark with Python truthiness (`if last_sync:`), so the
session whose time_updated equals the watermark 0 IS re-synced — its
conversation_index row appears — contradicting the claim that for every
recorded watermark T a session with time_updated == T is not re-synced. -/
theorem C5_counterexample_watermark_zero :
    get_last_sync_time sysC5.search = some 0 ∧
    upC5.sessions.map (fun s => s.time_updated) = [some 0] ∧
    (sync_search_index upC5 false 42 sysC5).search.conv_index.map (fun c => c.id) =
      ["sess-zero"] := by
  decide

/-- C5 amended: for every recorded NONZERO watermark T, an incremental sync
selects exactly the upstream sessions whose time_updated is strictly greater
than T (a session at exactly T is excluded, T+1 is included); a recorded
watermark of 0 instead triggers a full sync. -/
theorem C5_incremental_boundary_amended (up : UpstreamDB) (T : Int)
    (hT : T ≠ 0) (s : UpstreamSession) :
    s ∈ selectCandidates up (some T) ↔
      s ∈ up.sessions ∧ ∃ v, s.time_updated = some v ∧ T < v := by
  have hsel : selectCandidates up (some T) =
      up.sessions.filter (fun s =>
        match s.time_updated with
        | some v => decide (T < v)
        | none => false) := by
    unfold selectCandidates
    simp [hT]
  rw [hsel, List.mem_filter]
  constructor
  · rintro ⟨hmem, hcond⟩
    refine ⟨hmem, ?_⟩
    cases ht : s.time_updated with
    | none => rw [ht] at hcond; cases hcond
    | some v => rw [ht] at hcond; exact ⟨v, rfl, of_decide_eq_true hcond⟩
  · rintro ⟨hmem, v, hv, hlt⟩
    refine ⟨hmem, ?_⟩
    rw [hv]
    exact decide_eq_true hlt

/-- Witness for the amended C5 at watermark 5 and a session updated at
exactly 5. -/
theorem C5_incremental_boundary_amended_witness :
    sessT5 ∈ selectCandidates upC5w (some 5) ↔
      sessT5 ∈ upC5w.sessions ∧ ∃ v, sessT5.time_updated = some v ∧ (5 : Int) < v :=
  C5_incremental_boundary_amended upC5w 5 (by decide) sessT5

/-- C6: Watermark update policy: a sync run leaves the stored watermark
unchanged when the candidate set is empty (or the upstream store is absent),
and otherwise sets it to the wall-clock time `now` of the run — by the shape
of the equation, never to any value derived from the synced sessions. -/
theorem C6_watermark_policy (up : UpstreamDB) (forceFull : Bool) (now : Int)
    (sys : Sys) :
    get_last_sync_time (sync_search_index up forceFull now sys).search =
      (if up.dbExists &&
          !((selectCandidates up
            (if forceFull then none else get_last_sync_time sys.search)).isEmpty)
       then some now
       else get_last_sync_time sys.search) :=
  run_watermark up forceFull now sys

/-- C7: ensureExists is non-destructive and idempotent: on an existing row
the store is unchanged (title, slug, archived keep their values); on a
missing row a bare row (title none, slug none, archived false) is inserted;
and a second call never changes anything after the first. -/
theorem C7_ensure_exists_idempotent (db : ExtStore) (id : String) :
    (∀ c, get_conversation db id = some c → ensure_conversation_exists db id = db) ∧
    (get_conversation db id = none →
      get_conversation (ensure_conversation_exists db id) id = some bareConversation) ∧
    ensure_conversation_exists (ensure_conversation_exists db id) id =
      ensure_conversation_exists db id := by
  refine ⟨?_, ?_, ?_⟩
  · intro c h
    exact ensure_of_some db id c h
  · intro h
    unfold ensure_conversation_exists
    rw [h]
    show get_conversation ((id, bareConversation) :: db) id = some bareConversation
    rw [get_conversation_cons, if_pos (by simp)]
  · obtain ⟨c, hc⟩ := Option.isSome_iff_exists.mp (get_ensure_self db id)
    exact ensure_of_some _ id c hc

/-- Witness for C7 on a store with one populated row. -/
theorem C7_ensure_exists_idempotent_witness :
    ensure_conversation_exists extC7 "a" = extC7 ∧
    get_conversation (ensure_conversation_exists extC7 "b") "b" = some bareConversation ∧
    ensure_conversation_exists (ensure_conversation_exists extC7 "b") "b" =
      ensure_conversation_exists extC7 "b" :=
  ⟨(C7_ensure_exists_idempotent extC7 "a").1
      { title := some "T", slug := some "S", archived := true } (by decide),
   (C7_ensure_exists_idempotent extC7 "b").2.1 (by decide),
   (C7_ensure_exists_idempotent extC7 "b").2.2⟩

/-- C8: Three-valued upsert law: an omitted field keeps its prior value, an
explicit None clears it, an explicit value sets it; archived is never
touched; the row is created if absent and the resulting row is returned
(stored under the id); and upsert(id, title="X") followed by
upsert(id, title=None) yields title == None. -/
theorem C8_upsert_three_valued (db : ExtStore) (id : String)
    (targ sarg : Option (Option String)) :
    (upsert_conversation db id targ sarg).snd.title =
      (match targ with
       | none => ((get_conversation db id).getD bareConversation).title
       | some t => t) ∧
    (upsert_conversation db id targ sarg).snd.slug =
      (match sarg with
       | none => ((get_conversation db id).getD bareConversation).slug
       | some s => s) ∧
    (upsert_conversation db id targ sarg).snd.archived =
      ((get_conversation db id).getD bareConversation).archived ∧
    get_conversation (upsert_conversation db id targ sarg).fst id =
      some (upsert_conversation db id targ sarg).snd ∧
    (upsert_conversation (upsert_conversation db id (some (some "X")) none).fst id
      (some none) none).snd.title = none := by
  refine ⟨?_, ?_, ?_, ?_, ?_⟩
  · cases targ <;> cases sarg <;> rfl
  · cases targ <;> cases sarg <;> rfl
  · cases targ <;> cases sarg <;> rfl
  · exact get_conversation_storeRow db id _
  · rfl

/-- C9 counterexample: syncing a text part whose text is " hi " stores the
content " hi " verbatim, while the trimmed text would be "hi" — so the
indexed content does NOT equal the part text with surrounding whitespace
trimmed. -/
theorem C9_counterexample_content_not_trimmed :
    (sync_conversation upC9 [] {} s9conv).snd.part_index.map (fun r => r.content) =
      [" hi "] ∧
    pyStrip " hi " = "hi" ∧
    (" hi " : String) ≠ "hi" := by
  decide

/-- C9 amended: every part_index row produced by a conversation sync carries
the part text field verbatim (untrimmed); trimming is only used as the
non-blank test; non-text part types yield nothing through text extraction. -/
theorem C9_indexed_text_untrimmed (up : UpstreamDB) (ext : ExtStore)
    (sdb : SearchDB) (conv : UpstreamSession) :
    ∀ r ∈ (sync_conversation up ext sdb conv).snd.part_index,
      r ∈ sdb.part_index ∨
      ∃ p ∈ up.parts, p.id = r.id ∧ p.type = "text" ∧
        extract_text_from_part p = some r.content ∧ p.text = some r.content ∧
        pyStrip r.content ≠ "" := by
  intro r hr
  have hsync : r ∈ (sync_conversation_search up sdb conv).part_index := hr
  rcases sync_conversation_search_part_mem hsync with h1 | h2
  · exact Or.inl h1
  · obtain ⟨m, _, p, hp, _, _, _, _, _, hpid, hty, htext, hblank⟩ := partRowsFor_ok h2
    refine Or.inr ⟨p, hp, hpid, hty, ?_, htext, hblank⟩
    unfold extract_text_from_part
    rw [if_pos (by simp [hty])]
    exact htext

/-- Witness for the amended C9 at the concrete whitespace-carrying part. -/
theorem C9_indexed_text_untrimmed_witness :
    rowC9 ∈ ({} : SearchDB).part_index ∨
    ∃ p ∈ upC9.parts, p.id = rowC9.id ∧ p.type = "text" ∧
      extract_text_from_part p = some rowC9.content ∧ p.text = some rowC9.content ∧
      pyStrip rowC9.content ≠ "" :=
  C9_indexed_text_untrimmed upC9 [] {} s9conv rowC9 (by decide)

/-- C10: Asymmetric failure atomicity of sync: a run that fails while
processing candidate k persists no search-mirror write and no watermark
update (the whole search store is unchanged), while the Extension Store
reflects exactly the immediately committed ensure-exists calls of the k
candidates processed before the failure, whose rows therefore exist. -/
theorem C10_failure_atomicity (up : UpstreamDB) (forceFull : Bool) (now : Int)
    (sys : Sys) (k : Nat)
    (hdb : up.dbExists = true)
    (hk : k < (selectCandidates up
      (if forceFull then none else get_last_sync_time sys.search)).length) :
    (sync_search_index_run up forceFull now (some k) sys).search = sys.search ∧
    get_last_sync_time (sync_search_index_run up forceFull now (some k) sys).search =
      get_last_sync_time sys.search ∧
    (sync_search_index_run up forceFull now (some k) sys).ext =
      List.foldl (fun e c => ensure_conversation_exists e c.id) sys.ext
        ((selectCandidates up
          (if forceFull then none else get_last_sync_time sys.search)).take k) ∧
    ∀ s ∈ (selectCandidates up
        (if forceFull then none else get_last_sync_time sys.search)).take k,
      (get_conversation (sync_search_index_run up forceFull now (some k) sys).ext
        s.id).isSome = true := by
  obtain ⟨hsearch, hext⟩ := run_fail_state up forceFull now sys k hdb hk
  refine ⟨hsearch, by rw [hsearch], hext, ?_⟩
  intro s hs
  rw [hext]
  exact foldl_ensure_mem _ _ _ hs

/-- Witness for C10: a full-sync run over two sessions failing at the second
candidate. -/
theorem C10_failure_atomicity_witness :
    (sync_search_index_run upC10 true 99 (some 1) {}).search = ({} : Sys).search ∧
    get_last_sync_time (sync_search_index_run upC10 true 99 (some 1) {}).search =
      get_last_sync_time ({} : Sys).search ∧
    (sync_search_index_run upC10 true 99 (some 1) {}).ext =
      List.foldl (fun e c => ensure_conversation_exists e c.id) ({} : Sys).ext
        ((selectCandidates upC10
          (if true then none else get_last_sync_time ({} : Sys).search)).take 1) ∧
    ∀ s ∈ (selectCandidates upC10
        (if true then none else get_last_sync_time ({} : Sys).search)).take 1,
      (get_conversation (sync_search_index_run upC10 true 99 (some 1) {}).ext
        s.id).isSome = true :=
  C10_failure_atomicity upC10 true 99 {} 1 (by decide) (by decide)

end OCSV
